import Mathlib

/-!
Shallow embedding of the Poetry Foundation scraper (`poems.py`) and proofs
about its extraction pipeline, cleaning rules, deduplication, persistence
boundaries and row-range handling.

String primitives model the Python string operations used by the source
(`str.strip`, `str.lower`, slicing, `in`, `str.startswith`, `len`,
`str.split`, `'\n'.join`, `str.isdigit`) over `String`/`List Char`,
restricted to ASCII which is all the source's literals use.  All
definitions are structural recursions so that concrete instances evaluate
in the kernel.
-/

namespace Poems

/-- Python whitespace class for ASCII: space, tab, newline, CR, VT, FF. -/
def pyWS (c : Char) : Bool :=
  c == ' ' || c == '\t' || c == '\n' || c == '\r' || c == '\x0b' || c == '\x0c'

/-- Trim `pyWS` characters from both ends of a character list
(Python `str.strip()`). -/
def stripChars (l : List Char) : List Char :=
  ((l.dropWhile pyWS).reverse.dropWhile pyWS).reverse

/-- Python `s.strip()`. -/
def pyStrip (s : String) : String := ⟨stripChars s.data⟩

/-- Python `s.lower()` (ASCII). -/
def pyLower (s : String) : String := ⟨s.data.map Char.toLower⟩

/-- Python `len(s)`. -/
def pyLen (s : String) : Nat := s.data.length

/-- Python `s[n:]`. -/
def pyDrop (s : String) (n : Nat) : String := ⟨s.data.drop n⟩

/-- Python `s.lstrip()`-like removal of leading whitespace, used to model
the regex fragment matching zero or more whitespace characters. -/
def pyDropWS (s : String) : String := ⟨s.data.dropWhile pyWS⟩

/-- `p` is a leading segment of `s` (character lists). -/
def leadsList : List Char → List Char → Bool
  | [], _ => true
  | _ :: _, [] => false
  | a :: as, b :: bs => a == b && leadsList as bs

/-- Python `s.startswith(p)`. -/
def pyStartsWith (s p : String) : Bool := leadsList p.data s.data

/-- `needle` occurs as a contiguous segment of `hay`. -/
def hasSub (needle : List Char) : List Char → Bool
  | [] => needle.isEmpty
  | c :: cs => leadsList needle (c :: cs) || hasSub needle cs

/-- Python `needle in hay` for strings. -/
def strContains (hay needle : String) : Bool := hasSub needle.data hay.data

/-- Python `s.isdigit()` (ASCII digits). -/
def pyIsDigit (s : String) : Bool := s != "" && s.data.all Char.isDigit

/-- Split a character list on newline characters (Python `s.split('\n')`). -/
def splitOnNL : List Char → List (List Char)
  | [] => [[]]
  | c :: cs =>
    if c == '\n' then [] :: splitOnNL cs
    else
      match splitOnNL cs with
      | [] => [[c]]
      | l :: ls => (c :: l) :: ls

/-- Python `s.split('\n')`. -/
def pySplitNL (s : String) : List String := (splitOnNL s.data).map (fun l => ⟨l⟩)

/-- Python `'\n'.join(l)`. -/
def joinNL : List String → String
  | [] => ""
  | [s] => s
  | s :: rest => s ++ "\n" ++ joinNL rest

/-!
## Field extractor (`scrape_poem_content`, poems.py lines 116-234)

The parsed page is abstracted as the per-selector outcomes of the
BeautifulSoup queries: for each selector of a role's chain, either no
element matched (`none`) or the text the code would extract from the first
matching element.  A matched body element carries two texts: the one
obtained after the code's removal of nested author links
(`get_text` after the `decompose` loop, lines 171-177) and the plain one
with no removal applied (what `get_text` yields on the untouched element,
used by the `main, article, ...` fallback at lines 182-185).
-/

/-- A matched markup element of the body role (or of the main-content
fallback locator). `textAfterAuthorStrip` is the text extracted after the
nested author-link removal; `textPlain` is the text with no removal. -/
structure Element where
  textAfterAuthorStrip : String
  textPlain : String
deriving DecidableEq

/-- One poem page, as the outcomes of the selector queries of
`scrape_poem_content`: entry `i` of each list is `select_one`'s result for
the `i`-th selector of that role's chain. -/
structure PoemDoc where
  titleSel : List (Option String)
  bodySel : List (Option Element)
  mainContent : Option Element
  authorSel : List (Option String)
deriving DecidableEq

/-- Title qualification (line 142): `if title_text and len(title_text) > 1`. -/
def qualTitle (t : String) : Bool := t != "" && pyLen t > 1

/-- Body qualification (line 178): `if poem_content and len(poem_content) > 30`. -/
def qualBody (t : String) : Bool := t != "" && pyLen t > 30

/-- Author qualification (line 209): `if author_text and len(author_text) > 1`. -/
def qualAuthor (t : String) : Bool := t != "" && pyLen t > 1

/-- The `p1` magazine-source title strip as written in
`extract_poems_from_theme` (lines 76-77). -/
def stripP1theme (t : String) : String :=
  if pyStartsWith (pyLower t) "p1" then pyStrip (pyDrop t 2) else t

/-- The `p1` magazine-source title strip as written in
`scrape_poem_content` (lines 147-148). -/
def stripP1content (t : String) : String :=
  if pyStartsWith (pyLower t) "p1" then pyStrip (pyDrop t 2) else t

/-- The `p1` magazine-source title strip as written in
`extract_poems_from_author` (lines 331-332 and 392-393). -/
def stripP1author (t : String) : String :=
  if pyStartsWith (pyLower t) "p1" then pyStrip (pyDrop t 2) else t

/-- `re.sub(r'^(by|author:?)\s*', '', s, flags=re.IGNORECASE)` (line 208):
the alternation tries `by` first, then `author` with an optional greedy
colon, anchored at the start, followed by greedy whitespace. -/
def stripAuthorLead (s : String) : String :=
  if pyStartsWith (pyLower s) "by" then pyDropWS (pyDrop s 2)
  else if pyStartsWith (pyLower s) "author:" then pyDropWS (pyDrop s 7)
  else if pyStartsWith (pyLower s) "author" then pyDropWS (pyDrop s 6)
  else s

/-- Title chain (lines 138-144): walk the title selectors in order; the
first qualifying text wins and breaks; a match that does not qualify
leaves the provisional title and continues. -/
def titleChain : List (Option String) → String → String
  | [], fb => fb
  | none :: rest, fb => titleChain rest fb
  | some t :: rest, fb => if qualTitle t then t else titleChain rest fb

/-- Author chain (lines 188-211): `author` starts as `"Unknown Author"`;
each matched element's text is prefix-stripped and the first qualifying
result wins and breaks. -/
def authorChain : List (Option String) → String
  | [] => "Unknown Author"
  | none :: rest => authorChain rest
  | some t :: rest =>
    let a := stripAuthorLead t
    if qualAuthor a then a else authorChain rest

/-- Body chain loop (lines 168-179): `poem_content` starts as `None`; each
matched element overwrites it with the author-stripped text, and the loop
breaks when that text qualifies.  A non-qualifying match is retained as
the current `poem_content` when the loop moves on. -/
def bodyChainAux : Option String → List (Option Element) → Option String
  | acc, [] => acc
  | acc, none :: rest => bodyChainAux acc rest
  | _, some e :: rest =>
    let c := e.textAfterAuthorStrip
    if qualBody c then some c else bodyChainAux (some c) rest

/-- The author-stripped texts of the matched body elements, in chain order. -/
def bodyTexts (sel : List (Option Element)) : List String :=
  sel.filterMap (fun o => o.map Element.textAfterAuthorStrip)

/-- Python truthiness of the optional `poem_content` (`if not poem_content`). -/
def isFalsy : Option String → Bool
  | none => true
  | some s => s == ""

/-- Body resolution including the main-content fallback (lines 181-185):
when the chain left `poem_content` falsy, the broad container's plain text
(no author-stripping) is used if that locator matched. -/
def bodyResolved (d : PoemDoc) : Option String :=
  let pc := bodyChainAux none d.bodySel
  if isFalsy pc then
    match d.mainContent with
    | some m => some m.textPlain
    | none => pc
  else pc

/-- The navigation/metadata noise phrases of the cleaning step (line 224). -/
def noisePhrases : List String :=
  ["browse poems", "more poems", "related poems", "share this poem"]

/-- A line is noise when its lowercased text contains a noise phrase
(line 225). -/
def isNoiseLine (line : String) : Bool :=
  noisePhrases.any (fun p => strContains (pyLower line) p)

/-- Cleaning loop body (lines 218-227): strip the line; skip it while
nothing has been kept yet and it is blank; skip it when it is noise;
otherwise append the stripped line. -/
def cleanLinesAux : List String → List String → List String
  | cleaned, [] => cleaned
  | cleaned, raw :: rest =>
    let line := pyStrip raw
    if cleaned.isEmpty && line == "" then cleanLinesAux cleaned rest
    else if isNoiseLine line then cleanLinesAux cleaned rest
    else cleanLinesAux (cleaned ++ [line]) rest

/-- The cleaning step applied to the split body lines (lines 215-227). -/
def cleanLines (lines : List String) : List String := cleanLinesAux [] lines

/-- `scrape_poem_content` (lines 116-234) for a fetched page: resolve the
title (with the p1 strip), the author and the body; when the body is
truthy, clean it and compose the canonical artifact text
`Title: ...\nAuthor: ...\n\n<cleaned lines>`; otherwise return nothing. -/
def scrapePoemContent (d : PoemDoc) (provisionalTitle : String) : Option String :=
  let actualTitle := stripP1content (titleChain d.titleSel provisionalTitle)
  let author := authorChain d.authorSel
  match bodyResolved d with
  | none => none
  | some pc =>
    if pc == "" then none
    else
      let cleaned := joinNL (cleanLines (pySplitNL pc))
      some ("Title: " ++ actualTitle ++ "\nAuthor: " ++ author ++ "\n\n" ++ cleaned)

/-!
## Link extractors (`extract_poems_from_theme`, lines 39-93, and
`extract_poems_from_author`, lines 299-430)

A listing page is abstracted as the per-selector lists of matched
elements.  For the theme page, the code resolves each match to its
enclosing anchor (`find_parent('a')` when the match is not itself an
anchor, lines 62-65); a resolved anchor with its `href` is a `Link`, and
`none` stands for a match with no enclosing anchor or no truthy `href`
(an absent `href` behaves as the empty string).  URL resolution
(`urllib.parse.urljoin`) is an external collaborator and is passed in as
an arbitrary function of the `href`.
-/

/-- An anchor element on a listing page: its `href` attribute (empty for
a missing attribute) and its `get_text(strip=True)` label. -/
structure Link where
  href : String
  text : String
deriving DecidableEq

/-- A candidate poem: the dictionary `{'title': ..., 'url': ...}`. -/
structure Cand where
  title : String
  url : String
deriving DecidableEq

/-- Theme-mode navigation stop words (line 80). -/
def themeSkipWords : List String :=
  ["more", "browse", "search", "filter", "sort", "next", "previous", "page"]

/-- Per-element processing of the theme listing loop (lines 61-84): demand
a truthy `href` containing `/poems/`, a label of length at least 3, apply
the p1 strip, and reject labels containing a stop word; the survivor
carries the stripped title and the resolved URL. -/
def themeLinkCand (resolve : String → String) : Option Link → Option Cand
  | none => none
  | some l =>
    if l.href == "" then none
    else if !strContains l.href "/poems/" then none
    else
      let t0 := l.text
      if t0 == "" || pyLen t0 < 3 then none
      else
        let t := stripP1theme t0
        if themeSkipWords.any (fun w => strContains (pyLower t) w) then none
        else some ⟨t, resolve l.href⟩

/-- Append a candidate unless its URL is already present
(lines 86-90: `if not any(p['url'] == full_url for p in poems)`). -/
def addCand (poems : List Cand) (c : Cand) : List Cand :=
  if poems.any (fun p => p.url == c.url) then poems else poems ++ [c]

/-- The accumulation of one selector's element list into the running
candidate list: process each element and dedup-append the survivors. -/
def accumLinks (f : α → Option Cand) : List Cand → List α → List Cand
  | poems, [] => poems
  | poems, e :: rest =>
    match f e with
    | none => accumLinks f poems rest
    | some c => accumLinks f (addCand poems c) rest

/-- `extract_poems_from_theme` (lines 59-91): the outer loop runs over
every selector of the chain, accumulating into the same candidate list —
it never stops at a selector with matches.  `selMatches` holds, per
selector, the anchors resolved from `soup.select(selector)`. -/
def extractPoemsFromTheme (resolve : String → String)
    (selMatches : List (List (Option Link))) : List Cand :=
  selMatches.foldl (fun poems elems => accumLinks (themeLinkCand resolve) poems elems) []

/-- An anchor on an author page; `badParent` records whether its enclosing
`div`/`section`/`article` has a `nav`/`footer`/`sidebar`/`menu` class
(checked only by the broader fallback pass, lines 383-385). -/
structure AElem where
  href : String
  text : String
  badParent : Bool
deriving DecidableEq

/-- Author-mode stop words (lines 335-342, repeated verbatim at 397-404). -/
def authorSkipWords : List String :=
  ["more", "browse", "search", "filter", "sort", "next", "previous", "page",
   "view all", "see all", "read more", "continue reading", "share", "print",
   "poems by", "about", "biography", "contact", "subscribe", "newsletter",
   "guide", "guides", "all poems", "poem of the day", "daily poem", "featured",
   "collection", "anthology", "archive", "browse by", "category", "theme",
   "popular poems", "classic poems", "recent poems", "new poems"]

/-- Author-mode stop phrases (lines 343-349, repeated verbatim at 405-411). -/
def authorSkipPhrases : List String :=
  ["view all poems by", "browse poems by", "more poems by",
   "see more", "read all", "poem guides", "poem guide", "all poems",
   "poem of the day", "poems of the day", "daily poems", "featured poems",
   "popular poems", "classic poems", "recent poems", "new poems",
   "browse all", "view more", "see all poems", "all poetry"]

/-- Common navigation words rejected as whole lowercased titles
(lines 362 and 418). -/
def navWords : List String := ["more", "next", "prev", "home"]

/-- Per-element processing of the author primary pass (lines 323-365). -/
def authorElemCand (resolve : String → String) (e : AElem) : Option Cand :=
  if e.href == "" then none
  else if !strContains e.href "/poems/" then none
  else
    let t0 := e.text
    if t0 == "" || pyLen t0 < 3 then none
    else
      let t := stripP1author t0
      let tl := pyLower t
      if authorSkipWords.any (fun w => strContains tl w) then none
      else if authorSkipPhrases.any (fun p => strContains tl p) then none
      else if pyLen t < 5 then none
      else if pyIsDigit t || navWords.any (fun w => tl == w) then none
      else some ⟨t, resolve e.href⟩

/-- Per-element processing of the author broader fallback pass
(lines 379-421): additionally rejects anchors inside navigation-like
containers, and applies a length floor of 5 before the p1 strip. -/
def authorBroadCand (resolve : String → String) (e : AElem) : Option Cand :=
  if e.href == "" then none
  else if !strContains e.href "/poems/" then none
  else if e.badParent then none
  else
    let t0 := e.text
    if t0 == "" || pyLen t0 < 5 then none
    else
      let t := stripP1author t0
      let tl := pyLower t
      if authorSkipWords.any (fun w => strContains tl w) then none
      else if authorSkipPhrases.any (fun p => strContains tl p) then none
      else if pyIsDigit t || navWords.any (fun w => tl == w) then none
      else some ⟨t, resolve e.href⟩

/-- `extract_poems_from_author` (lines 321-428): accumulate over every
primary selector; only when that leaves the candidate list empty, run the
broader site-wide pass into the (empty) list. -/
def extractPoemsFromAuthor (resolve : String → String)
    (primMatches : List (List AElem)) (broadMatches : List AElem) : List Cand :=
  let poems :=
    primMatches.foldl (fun poems elems => accumLinks (authorElemCand resolve) poems elems) []
  if poems.isEmpty then accumLinks (authorBroadCand resolve) [] broadMatches
  else poems

/-!
## Artifact writer, slug, filesystem and theme orchestrator
(`clean_filename` lines 33-37, `save_poem` lines 95-114,
`scrape_poems_by_theme` lines 236-291)

The filesystem collaborator is a list of `(path, content)` pairs; a write
replaces any file at the same path.
-/

/-- The characters replaced by an underscore in `clean_filename`
(the regex character class at line 35). -/
def badFileChar (c : Char) : Bool :=
  c == '<' || c == '>' || c == ':' || c == '"' || c == '/' ||
  c == '\\' || c == '|' || c == '?' || c == '*'

/-- Collapse each maximal whitespace run to a single underscore
(`re.sub(r'\s+', '_', name)`, line 36). The flag records whether the
previous character was part of a whitespace run. -/
def collapseWSAux : Bool → List Char → List Char
  | _, [] => []
  | afterWS, c :: cs =>
    if pyWS c then
      if afterWS then collapseWSAux true cs else '_' :: collapseWSAux true cs
    else c :: collapseWSAux false cs

/-- Trim underscores from both ends (`name.strip('_')`, line 37). -/
def stripUnderscores (l : List Char) : List Char :=
  ((l.dropWhile (fun c => c == '_')).reverse.dropWhile (fun c => c == '_')).reverse

/-- `clean_filename` (lines 33-37). -/
def cleanFilename (s : String) : String :=
  ⟨stripUnderscores (collapseWSAux false
      (s.data.map (fun c => if badFileChar c then '_' else c)))⟩

/-- The filesystem collaborator: a finite map from paths to contents. -/
structure FS where
  files : List (String × String)
deriving DecidableEq

/-- `os.path.exists`-style check used through `Path.exists()`. -/
def fsHas (fs : FS) (path : String) : Bool :=
  fs.files.any (fun f => f.1 == path)

/-- Write a file, replacing any previous file at the same path. -/
def fsWrite (fs : FS) (path content : String) : FS :=
  ⟨(path, content) :: fs.files.filter (fun f => !(f.1 == path))⟩

/-- `save_poem` (lines 95-110): refuse falsy content or content whose
stripped length is under 10 (returning `False` and writing nothing);
otherwise write `<folder>/<filename>.txt` and return `True`. -/
def savePoem (fs : FS) (content folder filename : String) : FS × Bool :=
  if content == "" || pyLen (pyStrip content) < 10 then (fs, false)
  else (fsWrite fs (folder ++ "/" ++ filename ++ ".txt") content, true)

/-- The per-run counters of the theme orchestrator, plus the filesystem
and the number of poem-page fetches performed. -/
structure RunTally where
  fs : FS
  saved : Nat
  fetches : Nat
deriving DecidableEq

/-- The per-poem step of `scrape_poems_by_theme` (lines 263-282): the
existence check is made on `<folder>/<raw title>.txt` (line 267) and skips
the poem entirely; otherwise the poem page is fetched
(`scrape_poem_content`, one network call) and, when content came back, it
is saved under the cleaned filename (lines 276-279). -/
def processThemePoem (fetchDoc : String → Option PoemDoc) (folder : String)
    (st : RunTally) (poem : Cand) : RunTally :=
  let path := folder ++ "/" ++ poem.title ++ ".txt"
  if fsHas st.fs path then st
  else
    let st2 : RunTally := ⟨st.fs, st.saved, st.fetches + 1⟩
    match fetchDoc poem.url with
    | none => st2
    | some d =>
      match scrapePoemContent d poem.title with
      | none => st2
      | some content =>
        let r := savePoem st2.fs content folder (cleanFilename poem.title)
        if r.2 then ⟨r.1, st2.saved + 1, st2.fetches⟩ else ⟨r.1, st2.saved, st2.fetches⟩

/-- The poem-processing loop of `scrape_poems_by_theme` over an already
extracted candidate list, starting from a given filesystem; counters start
at zero as in lines 260-282. The theme folder is
`poems/<clean_filename(theme)>` (line 257). -/
def runTheme (fetchDoc : String → Option PoemDoc) (themeName : String)
    (fs0 : FS) (poems : List Cand) : RunTally :=
  poems.foldl (processThemePoem fetchDoc ("poems/" ++ cleanFilename themeName)) ⟨fs0, 0, 0⟩

/-!
## Author-range row selection (`scrape_poems_by_author_range`,
lines 432-471)
-/

/-- Per-row screening (lines 465-471): skip empty rows and rows whose
stripped first cell does not start with `http`; otherwise the stripped
cell is the processed author URL. -/
def rowAuthorURL : List String → Option String
  | [] => none
  | cell :: _ =>
    let u := pyStrip cell
    if pyStartsWith u "http" then some u else none

/-- The author URLs processed by `scrape_poems_by_author_range` for a CSV
whose data rows are `rows`: the start row clamps up to 1 (lines 453-454),
the end row defaults to, and clamps down to, the row count
(lines 455-456), and the loop walks `range(start_row - 1, end_row)`
(line 461). -/
def processedAuthors (rows : List (List String)) (startRow : Int)
    (endRow : Option Int) : List String :=
  let total : Int := rows.length
  let s : Int := if startRow < 1 then 1 else startRow
  let e : Int := match endRow with
    | none => total
    | some x => if x > total then total else x
  (List.range' (s - 1).toNat (e.toNat - (s - 1).toNat)).filterMap
    (fun i => (rows.get? i).bind rowAuthorURL)

/-- Whether the accumulated list already holds a candidate with this URL. -/
def urlDup (poems : List Cand) (c : Cand) : Bool :=
  poems.any (fun p => p.url == c.url)

/-- First-occurrence deduplication by URL: keep each candidate and drop
every later candidate carrying the same URL. -/
def keepFirsts : List Cand → List Cand
  | [] => []
  | c :: rest => c :: keepFirsts (rest.filter (fun p => !(p.url == c.url)))
termination_by l => l.length
decreasing_by
  simp only [List.length_cons]
  exact Nat.lt_succ_of_le (List.length_filter_le _ _)

/-- Modelled from the spec's words for comparison (claim C5): the cleaning
as the claim describes it — drop exactly the lines before the first
non-blank line and every line whose lowercased text contains a noise
phrase, keeping every other line unchanged and in order. -/
def claimedCleanLines (l : List String) : List String :=
  (l.dropWhile (fun s => pyStrip s == "")).filter (fun s => !isNoiseLine s)

/-!
## Concrete scenario data used by the closed theorems
-/

/-- A 36-character single-line poem body. -/
def bodyTextAB : String := "abcdefghij abcdefghij abcdefghij abc"

/-- A poem page whose single body locator matches that 36-character text. -/
def docAB : PoemDoc := ⟨[], [some ⟨bodyTextAB, bodyTextAB⟩], none, []⟩

/-- A fetcher that always returns that page. -/
def fetchAB : String → Option PoemDoc := fun _ => some docAB

/-- A candidate poem whose raw title `A B` differs from its slug `A_B`. -/
def poemAB : Cand := ⟨"A B", "u"⟩

/-- A main-content container with a long plain text. -/
def mainC3 : Element :=
  ⟨"this main container text is over thirty characters long",
   "this main container text is over thirty characters long"⟩

/-- A poem page where the only body-role match is 10 characters (so no
body locator qualifies) while a long main-content container exists. -/
def docC3 : PoemDoc := ⟨[], [some ⟨"short poem", "short poem"⟩], some mainC3, []⟩

/-- A poem page with no body-role match at all and a main container. -/
def docC3w : PoemDoc := ⟨[], [none], some mainC3, []⟩

/-- Six single-cell CSV data rows of author URLs. -/
def rowsW : List (List String) :=
  [["http://a"], ["http://b"], ["http://c"], ["http://d"], ["http://e"], ["http://f"]]

/-!
## Helper lemmas
-/

theorem strBeqComm (a b : String) : (a == b) = (b == a) := by
  by_cases h : a = b
  · subst h; rfl
  · rw [beq_eq_false_iff_ne.mpr h, beq_eq_false_iff_ne.mpr (fun e => h e.symm)]

theorem dropWhileSublist (p : String → Bool) (l : List String) :
    List.Sublist (l.dropWhile p) l :=
  List.dropWhile_sublist p

/-- The title chain returns the first qualifying matched text, else the
fallback. -/
theorem titleChain_eq (sel : List (Option String)) (fb : String) :
    titleChain sel fb = ((sel.filterMap id).find? qualTitle).getD fb := by
  induction sel with
  | nil => rfl
  | cons o rest ih =>
    cases o with
    | none => simpa [titleChain, List.filterMap_cons] using ih
    | some t =>
      by_cases h : qualTitle t = true
      · simp [titleChain, h, List.filterMap_cons, List.find?_cons_of_pos _ h]
      · simp only [titleChain, List.filterMap_cons, id]
        rw [if_neg (by simp [h]), List.find?_cons_of_neg _ (by simp [h]), ih]

/-- The author chain returns the first matched text whose stripped form
qualifies, else the default. -/
theorem authorChain_eq (sel : List (Option String)) :
    authorChain sel
      = (((sel.filterMap id).map stripAuthorLead).find? qualAuthor).getD
          "Unknown Author" := by
  induction sel with
  | nil => rfl
  | cons o rest ih =>
    cases o with
    | none => simpa [authorChain, List.filterMap_cons] using ih
    | some t =>
      by_cases h : qualAuthor (stripAuthorLead t) = true
      · simp [authorChain, h, List.filterMap_cons, List.find?_cons_of_pos _ h]
      · simp only [authorChain, List.filterMap_cons, List.map_cons, id]
        rw [if_neg (by simp [h]), List.find?_cons_of_neg _ (by simp [h]), ih]

/-- The body chain returns the first qualifying matched text; failing
that, the text of the last selector that matched anything; failing that,
the accumulator it started from. -/
theorem bodyChainAux_eq (sel : List (Option Element)) (acc : Option String) :
    bodyChainAux acc sel
      = (((bodyTexts sel).find? qualBody).or (bodyTexts sel).getLast?).or acc := by
  induction sel generalizing acc with
  | nil => rfl
  | cons o rest ih =>
    cases o with
    | none =>
      have hT : bodyTexts (none :: rest) = bodyTexts rest := by
        simp [bodyTexts, List.filterMap_cons]
      rw [hT]
      simpa [bodyChainAux] using ih acc
    | some e =>
      have hT : bodyTexts (some e :: rest)
          = e.textAfterAuthorStrip :: bodyTexts rest := by
        simp [bodyTexts, List.filterMap_cons]
      rw [hT]
      by_cases h : qualBody e.textAfterAuthorStrip = true
      · simp [bodyChainAux, h, List.find?_cons_of_pos _ h]
      · have hL : bodyChainAux acc (some e :: rest)
            = bodyChainAux (some e.textAfterAuthorStrip) rest := by
          simp [bodyChainAux, h]
        rw [hL, ih (some e.textAfterAuthorStrip),
          List.find?_cons_of_neg _ (by simp [h]), List.getLast?_cons]
        rcases hf : (bodyTexts rest).find? qualBody with _ | c
        · rcases hl : (bodyTexts rest).getLast? with _ | t <;> simp [Option.or]
        · simp [Option.or]

theorem addCand_eq (poems : List Cand) (c : Cand) :
    addCand poems c = if urlDup poems c then poems else poems ++ [c] := rfl

theorem accumLinks_append (f : α → Option Cand) (a b : List α) (acc : List Cand) :
    accumLinks f acc (a ++ b) = accumLinks f (accumLinks f acc a) b := by
  induction a generalizing acc with
  | nil => rfl
  | cons e rest ih =>
    rcases hf : f e with _ | c <;> simp [accumLinks, hf, ih]

theorem accumLinks_eq_foldl (f : α → Option Cand) (es : List α) (acc : List Cand) :
    accumLinks f acc es = (es.filterMap f).foldl addCand acc := by
  induction es generalizing acc with
  | nil => rfl
  | cons e rest ih =>
    rcases hf : f e with _ | c <;> simp [accumLinks, hf, List.filterMap_cons, ih]

theorem foldl_accumLinks_flatten (f : α → Option Cand)
    (ls : List (List α)) (acc : List Cand) :
    ls.foldl (fun poems elems => accumLinks f poems elems) acc
      = accumLinks f acc ls.flatten := by
  induction ls generalizing acc with
  | nil => rfl
  | cons es ls ih =>
    rw [List.foldl_cons, ih, List.flatten_cons, accumLinks_append]

theorem foldl_addCand_eq_keepFirsts (l acc : List Cand) :
    l.foldl addCand acc
      = acc ++ keepFirsts (l.filter (fun c => !urlDup acc c)) := by
  induction l generalizing acc with
  | nil => simp [keepFirsts]
  | cons c t ih =>
    by_cases h : urlDup acc c = true
    · have hdrop : (c :: t).filter (fun x => !urlDup acc x)
          = t.filter (fun x => !urlDup acc x) := by
        simp [List.filter_cons, h]
      rw [List.foldl_cons, addCand_eq, if_pos h, ih, hdrop]
    · have hkeep : (c :: t).filter (fun x => !urlDup acc x)
          = c :: t.filter (fun x => !urlDup acc x) := by
        simp [List.filter_cons, h]
      rw [List.foldl_cons, addCand_eq, if_neg (by simp [h]), ih, hkeep, keepFirsts]
      have hfilter :
          t.filter (fun x => !urlDup (acc ++ [c]) x)
            = (t.filter (fun x => !urlDup acc x)).filter
                (fun p => !(p.url == c.url)) := by
        rw [List.filter_filter]
        refine List.filter_congr (fun x _ => ?_)
        simp only [urlDup, List.any_append, List.any_cons, List.any_nil,
          Bool.or_false, Bool.not_or]
        rw [strBeqComm c.url x.url, Bool.and_comm]
      rw [hfilter]
      simp

theorem keepFirsts_sublist_aux :
    ∀ (n : Nat) (l : List Cand), l.length ≤ n → List.Sublist (keepFirsts l) l := by
  intro n
  induction n with
  | zero =>
    intro l hl
    rw [List.length_eq_zero.mp (Nat.le_zero.mp hl)]
    simp [keepFirsts]
  | succ n ih =>
    intro l hl
    cases l with
    | nil => simp [keepFirsts]
    | cons c rest =>
      rw [keepFirsts]
      refine List.Sublist.cons₂ c (List.Sublist.trans (ih _ ?_) (List.filter_sublist rest))
      exact Nat.le_of_lt_succ (Nat.lt_of_le_of_lt (List.length_filter_le _ _)
        (Nat.lt_succ_of_le (Nat.le_of_succ_le_succ hl)))

theorem keepFirsts_sublist (l : List Cand) : List.Sublist (keepFirsts l) l :=
  keepFirsts_sublist_aux l.length l (Nat.le_refl _)

theorem keepFirsts_pairwise_aux :
    ∀ (n : Nat) (l : List Cand), l.length ≤ n →
      (keepFirsts l).Pairwise (fun a b => a.url ≠ b.url) := by
  intro n
  induction n with
  | zero =>
    intro l hl
    rw [List.length_eq_zero.mp (Nat.le_zero.mp hl), keepFirsts]
    exact List.Pairwise.nil
  | succ n ih =>
    intro l hl
    cases l with
    | nil => rw [keepFirsts]; exact List.Pairwise.nil
    | cons c rest =>
      rw [keepFirsts, List.pairwise_cons]
      have hlen : (rest.filter (fun p => !(p.url == c.url))).length ≤ n :=
        Nat.le_of_lt_succ (Nat.lt_of_le_of_lt (List.length_filter_le _ _)
          (Nat.lt_succ_of_le (Nat.le_of_succ_le_succ hl)))
      refine ⟨fun a ha => ?_, ih _ hlen⟩
      have hmem : a ∈ rest.filter (fun p => !(p.url == c.url)) :=
        (keepFirsts_sublist _).subset ha
      have : (!(a.url == c.url)) = true := (List.mem_filter.mp hmem).2
      have hne : a.url ≠ c.url := by
        intro e
        rw [e] at this
        simp at this
      exact fun e => hne e.symm

theorem keepFirsts_pairwise (l : List Cand) :
    (keepFirsts l).Pairwise (fun a b => a.url ≠ b.url) :=
  keepFirsts_pairwise_aux l.length l (Nat.le_refl _)

theorem keepFirsts_eq_nil_iff (l : List Cand) : keepFirsts l = [] ↔ l = [] := by
  cases l with
  | nil => simp [keepFirsts]
  | cons c rest => rw [keepFirsts]; simp

/-- The whole-chain accumulation over concatenated selector matches equals
first-occurrence deduplication of the accepted candidates. -/
theorem accumLinks_nil_eq_keepFirsts (f : α → Option Cand) (es : List α) :
    accumLinks f [] es = keepFirsts (es.filterMap f) := by
  rw [accumLinks_eq_foldl, foldl_addCand_eq_keepFirsts, List.nil_append]
  have : (es.filterMap f).filter (fun c => !urlDup [] c) = es.filterMap f :=
    List.filter_true _
  rw [this]

theorem extractPoemsFromTheme_eq (resolve : String → String)
    (selM : List (List (Option Link))) :
    extractPoemsFromTheme resolve selM
      = keepFirsts (selM.flatten.filterMap (themeLinkCand resolve)) := by
  rw [extractPoemsFromTheme, foldl_accumLinks_flatten, accumLinks_nil_eq_keepFirsts]

theorem extractPoemsFromAuthor_eq (resolve : String → String)
    (prim : List (List AElem)) (broad : List AElem) :
    extractPoemsFromAuthor resolve prim broad
      = keepFirsts
          (if (prim.flatten.filterMap (authorElemCand resolve)).isEmpty
           then broad.filterMap (authorBroadCand resolve)
           else prim.flatten.filterMap (authorElemCand resolve)) := by
  have hp : prim.foldl (fun poems elems => accumLinks (authorElemCand resolve) poems elems) []
      = keepFirsts (prim.flatten.filterMap (authorElemCand resolve)) := by
    rw [foldl_accumLinks_flatten, accumLinks_nil_eq_keepFirsts]
  rw [extractPoemsFromAuthor, hp]
  by_cases he : (prim.flatten.filterMap (authorElemCand resolve)).isEmpty = true
  · have hnil : prim.flatten.filterMap (authorElemCand resolve) = [] :=
      List.isEmpty_iff.mp he
    rw [hnil]
    simp [keepFirsts, accumLinks_nil_eq_keepFirsts]
  · have hne : prim.flatten.filterMap (authorElemCand resolve) ≠ [] := by
      intro e
      exact he (by simp [e])
    have hke : (keepFirsts (prim.flatten.filterMap (authorElemCand resolve))).isEmpty
        = false := by
      rcases hkf : keepFirsts (prim.flatten.filterMap (authorElemCand resolve)) with _ | ⟨c, t⟩
      · exact absurd ((keepFirsts_eq_nil_iff _).mp hkf) hne
      · rfl
    rw [hke]
    rw [if_neg (by simp : ¬(false = true)), if_neg he]

theorem isNoiseLine_empty : isNoiseLine "" = false := by decide

theorem cleanLinesAux_ne_nil (rest : List String) :
    ∀ (c : List String), c ≠ [] →
      cleanLinesAux c rest
        = c ++ (rest.map pyStrip).filter (fun s => !isNoiseLine s) := by
  induction rest with
  | nil => intro c _; simp [cleanLinesAux]
  | cons raw t ih =>
    intro c hc
    have hc' : c.isEmpty = false := by
      cases c with
      | nil => exact absurd rfl hc
      | cons x xs => rfl
    by_cases hn : isNoiseLine (pyStrip raw) = true
    · have hstep : cleanLinesAux c (raw :: t) = cleanLinesAux c t := by
        simp [cleanLinesAux, hc', hn]
      rw [hstep, ih c hc]
      simp [List.filter_cons, hn]
    · have hstep : cleanLinesAux c (raw :: t) = cleanLinesAux (c ++ [pyStrip raw]) t := by
        simp [cleanLinesAux, hc', hn]
      rw [hstep, ih (c ++ [pyStrip raw]) (by simp)]
      simp [List.filter_cons, hn]

theorem cleanLinesAux_nil (rest : List String) :
    cleanLinesAux [] rest
      = ((rest.map pyStrip).filter (fun s => !isNoiseLine s)).dropWhile
          (fun s => s == "") := by
  induction rest with
  | nil => rfl
  | cons raw t ih =>
    by_cases hb : (pyStrip raw == "") = true
    · have he : pyStrip raw = "" := eq_of_beq hb
      have hstep : cleanLinesAux [] (raw :: t) = cleanLinesAux [] t := by
        simp [cleanLinesAux, hb]
      rw [hstep, ih]
      simp [List.filter_cons, he, isNoiseLine_empty, List.dropWhile]
    · by_cases hn : isNoiseLine (pyStrip raw) = true
      · have hstep : cleanLinesAux [] (raw :: t) = cleanLinesAux [] t := by
          simp [cleanLinesAux, hb, hn]
        rw [hstep, ih]
        simp [List.filter_cons, hn]
      · have hstep : cleanLinesAux [] (raw :: t) = cleanLinesAux [pyStrip raw] t := by
          simp [cleanLinesAux, hb, hn]
        rw [hstep, cleanLinesAux_ne_nil t [pyStrip raw] (by simp)]
        have : (pyStrip raw == "") = false := by simpa using hb
        simp [List.filter_cons, hn, List.dropWhile, this]

theorem cleanLines_eq (l : List String) :
    cleanLines l
      = ((l.map pyStrip).filter (fun s => !isNoiseLine s)).dropWhile
          (fun s => s == "") :=
  cleanLinesAux_nil l

/-!
## Claim theorems
-/

/-- C1: the claim says the orchestrator checks `<directory>/<slug>.txt`
before any fetch, so a second identical run performs zero additional
writes and reports a saved-count of 0.  The theme orchestrator instead
checks `<directory>/<raw title>.txt` while saving under the slug: with a
poem titled `A B`, the first run writes `poems/t/A_B.txt` but not
`poems/t/A B.txt`, so the second run fetches the poem page again and
saves again, reporting saved-count 1 — the code contradicts the claimed
resumability contract. -/
theorem c1_run_twice_bug :
    (runTheme fetchAB "t" ⟨[]⟩ [poemAB]).saved = 1
    ∧ fsHas (runTheme fetchAB "t" ⟨[]⟩ [poemAB]).fs "poems/t/A_B.txt" = true
    ∧ fsHas (runTheme fetchAB "t" ⟨[]⟩ [poemAB]).fs "poems/t/A B.txt" = false
    ∧ (runTheme fetchAB "t" (runTheme fetchAB "t" ⟨[]⟩ [poemAB]).fs [poemAB]).saved = 1
    ∧ (runTheme fetchAB "t" (runTheme fetchAB "t" ⟨[]⟩ [poemAB]).fs [poemAB]).fetches
        = 1 := by
  decide

/-- C2: poem-link extraction accumulates candidates across every locator
of the chain in order (it processes the concatenation of all selector
match lists, never stopping at the first locator with matches), whereas
the title, body and author chains are evaluated in priority order and
stop at the first locator yielding a qualifying match (`find?` over the
matched texts: non-empty length > 1 for title and for the stripped
author, length > 30 for body; title falls back to the provisional title,
author to `Unknown Author`, body to the last matched text). -/
theorem c2_chain_modes (resolve : String → String)
    (selM : List (List (Option Link))) (tsel : List (Option String)) (fb : String)
    (bsel : List (Option Element)) (asel : List (Option String)) :
    extractPoemsFromTheme resolve selM
        = accumLinks (themeLinkCand resolve) [] selM.flatten
    ∧ titleChain tsel fb = ((tsel.filterMap id).find? qualTitle).getD fb
    ∧ bodyChainAux none bsel
        = ((bodyTexts bsel).find? qualBody).or (bodyTexts bsel).getLast?
    ∧ authorChain asel
        = (((asel.filterMap id).map stripAuthorLead).find? qualAuthor).getD
            "Unknown Author" := by
  refine ⟨?_, titleChain_eq tsel fb, ?_, authorChain_eq asel⟩
  · rw [extractPoemsFromTheme, foldl_accumLinks_flatten]
  · rw [bodyChainAux_eq]
    cases ((bodyTexts bsel).find? qualBody).or (bodyTexts bsel).getLast? <;> rfl

/-- C3 counterexample: a page whose only body-role match has 10-character
text (so no body locator yields a qualifying match) while a long
main-content container exists.  The claim says the main-content fallback
is used exactly then, but the code keeps the short chain text as the body
and never consults the container. -/
theorem c3_cex :
    (bodyTexts docC3.bodySel).all (fun t => !qualBody t) = true
    ∧ docC3.mainContent = some mainC3
    ∧ bodyResolved docC3 = some "short poem"
    ∧ mainC3.textPlain ≠ "short poem" := by
  decide

/-- C3 amended: the main-content container is used as the body source
exactly when the body chain leaves `poem_content` empty — that is, when
no body-role locator matched any element, or the text of the last
matching body locator is the empty string (a non-empty non-qualifying
match suppresses the fallback and its text becomes the body); in the
fallback the container's plain text is taken, with no author-element
stripping applied. -/
theorem c3_amended_fallback (d : PoemDoc) (m : Element)
    (hm : d.mainContent = some m) :
    (isFalsy (bodyChainAux none d.bodySel) = true →
        bodyResolved d = some m.textPlain)
    ∧ (isFalsy (bodyChainAux none d.bodySel) = false →
        bodyResolved d = bodyChainAux none d.bodySel)
    ∧ (isFalsy (bodyChainAux none d.bodySel) = true ↔
        (bodyTexts d.bodySel).find? qualBody = none
        ∧ ((bodyTexts d.bodySel).getLast? = none
            ∨ (bodyTexts d.bodySel).getLast? = some "")) := by
  refine ⟨?_, ?_, ?_⟩
  · intro h
    simp [bodyResolved, h, hm]
  · intro h
    simp [bodyResolved, h]
  · rw [bodyChainAux_eq]
    rcases hf : (bodyTexts d.bodySel).find? qualBody with _ | c
    · rcases hl : (bodyTexts d.bodySel).getLast? with _ | t
      · simp [Option.or, isFalsy]
      · by_cases ht : t = ""
        · subst ht; simp [Option.or, isFalsy]
        · simp [Option.or, isFalsy, beq_eq_false_iff_ne.mpr ht, ht]
    · have hq : qualBody c = true := List.find?_some hf
      have hc : c ≠ "" := by
        intro e
        rw [e] at hq
        exact absurd hq (by decide)
      simp [Option.or, isFalsy, beq_eq_false_iff_ne.mpr hc]

/-- C3 amended witness: on a page with no body-role match at all, the
fallback fires and the body is the container's plain (unstripped) text. -/
theorem c3_amended_fallback_w :
    bodyResolved docC3w = some mainC3.textPlain
    ∧ isFalsy (bodyChainAux none docC3w.bodySel) = true :=
  ⟨(c3_amended_fallback docC3w mainC3 rfl).1 (by decide), by decide⟩

/-- C4: a body extraction of exactly 30 characters fails the body-role
qualification while 31 characters passes; the artifact writer refuses
(returns `false`, writing nothing) composed text whose trimmed length is
9, and persists (returns `true` and writes the artifact file) composed
text whose trimmed length is 10. -/
theorem c4_boundaries :
    (∀ s : String, pyLen s = 30 → qualBody s = false)
    ∧ (∀ s : String, pyLen s = 31 → qualBody s = true)
    ∧ (∀ (fs : FS) (folder filename c : String),
        pyLen (pyStrip c) = 9 → savePoem fs c folder filename = (fs, false))
    ∧ (∀ (fs : FS) (folder filename c : String),
        pyLen (pyStrip c) = 10 →
          (savePoem fs c folder filename).2 = true
          ∧ fsHas (savePoem fs c folder filename).1
              (folder ++ "/" ++ filename ++ ".txt") = true) := by
  refine ⟨?_, ?_, ?_, ?_⟩
  · intro s h
    simp [qualBody, h]
  · intro s h
    have hne : s ≠ "" := by
      intro e
      rw [e] at h
      exact absurd h (by decide)
    simp [qualBody, h, bne_iff_ne.mpr hne]
  · intro fs folder filename c h
    simp [savePoem, h]
  · intro fs folder filename c h
    have hne : c ≠ "" := by
      intro e
      rw [e] at h
      exact absurd h (by decide)
    have hcond : (c == "" || decide (pyLen (pyStrip c) < 10)) = false := by
      simp [beq_eq_false_iff_ne.mpr hne, h]
    constructor
    · simp [savePoem, beq_eq_false_iff_ne.mpr hne, h]
    · simp [savePoem, beq_eq_false_iff_ne.mpr hne, h, fsWrite, fsHas]

/-- C4 witness at the boundaries: 30- and 31-character bodies, and
composed texts of trimmed lengths 9 and 10. -/
theorem c4_boundaries_w :
    qualBody "abcdefghijklmnopqrstuvwxyz0123" = false
    ∧ qualBody "abcdefghijklmnopqrstuvwxyz01234" = true
    ∧ savePoem ⟨[]⟩ "123456789" "poems/love" "Leaves" = (⟨[]⟩, false)
    ∧ (savePoem ⟨[]⟩ "1234567890" "poems/love" "Leaves").2 = true :=
  ⟨c4_boundaries.1 _ (by decide), c4_boundaries.2.1 _ (by decide),
   c4_boundaries.2.2.1 ⟨[]⟩ "poems/love" "Leaves" "123456789" (by decide),
   (c4_boundaries.2.2.2 ⟨[]⟩ "poems/love" "Leaves" "1234567890" (by decide)).1⟩

/-- C5 counterexample: on `["more poems", "", "hi there"]` the code drops
the blank second line (it precedes the first kept line, though it comes
after the first non-blank line and contains no noise phrase), so the
cleaning does not keep every line outside the claim's two dropped kinds. -/
theorem c5_cex :
    cleanLines ["more poems", "", "hi there"] = ["hi there"]
    ∧ claimedCleanLines ["more poems", "", "hi there"] = ["", "hi there"]
    ∧ cleanLines ["more poems", "", "hi there"]
        ≠ claimedCleanLines ["more poems", "", "hi there"] := by
  decide

/-- C5 amended: each line is whitespace-trimmed; the cleaning drops blank
lines for as long as no line has been kept yet (so blanks preceded only
by noise or blank lines are dropped too, not only those before the first
non-blank line) and drops every line whose lowercased text contains a
noise phrase; every other trimmed line is kept in its original order, and
the cleaned sequence is a subsequence of the trimmed input lines. -/
theorem c5_amended_cleaning (l : List String) :
    cleanLines l
      = ((l.map pyStrip).filter (fun s => !isNoiseLine s)).dropWhile
          (fun s => s == "")
    ∧ List.Sublist (cleanLines l) (l.map pyStrip) := by
  refine ⟨cleanLines_eq l, ?_⟩
  rw [cleanLines_eq l]
  exact List.Sublist.trans (dropWhileSublist _ _) (List.filter_sublist _)

/-- C6: both listing-page extractions return first-occurrence-deduplicated
candidates: the result equals `keepFirsts` of the accepted candidates in
processing order (first-seen order), hence no two entries share a
resolved URL. -/
theorem c6_dedup_order (resolve : String → String)
    (selM : List (List (Option Link))) (prim : List (List AElem))
    (broad : List AElem) :
    (extractPoemsFromTheme resolve selM).Pairwise (fun a b => a.url ≠ b.url)
    ∧ extractPoemsFromTheme resolve selM
        = keepFirsts (selM.flatten.filterMap (themeLinkCand resolve))
    ∧ (extractPoemsFromAuthor resolve prim broad).Pairwise
        (fun a b => a.url ≠ b.url)
    ∧ extractPoemsFromAuthor resolve prim broad
        = keepFirsts
            (if (prim.flatten.filterMap (authorElemCand resolve)).isEmpty
             then broad.filterMap (authorBroadCand resolve)
             else prim.flatten.filterMap (authorElemCand resolve)) := by
  refine ⟨?_, extractPoemsFromTheme_eq resolve selM, ?_,
    extractPoemsFromAuthor_eq resolve prim broad⟩
  · rw [extractPoemsFromTheme_eq resolve selM]
    exact keepFirsts_pairwise _
  · rw [extractPoemsFromAuthor_eq resolve prim broad]
    exact keepFirsts_pairwise _

/-- C7: for every title beginning (case-insensitively) with the
magazine-source token `p1`, the strip performed at link extraction and
the strip performed on the page's own title are the same operation, so
the stored title does not depend on which path the title arrived by. -/
theorem c7_strip_consistent (t : String)
    (h : pyStartsWith (pyLower t) "p1" = true) :
    stripP1theme t = stripP1content t := rfl

/-- C7 witness at the title `P1 Ode`. -/
theorem c7_strip_consistent_w :
    pyStartsWith (pyLower "P1 Ode") "p1" = true
    ∧ stripP1theme "P1 Ode" = stripP1content "P1 Ode" :=
  ⟨by decide, c7_strip_consistent "P1 Ode" (by decide)⟩

/-- C8 counterexample: for the matched author text `byby Jo` the single
regex substitution removes only the first `by`, storing `by Jo` — an
author field that still begins with a case-insensitive `by` prefix,
contradicting the claim that the stored field never retains such a
leading prefix. -/
theorem c8_cex :
    authorChain [some "byby Jo"] = "by Jo"
    ∧ pyStartsWith (pyLower "by Jo") "by" = true := by
  decide

/-- C8 amended: author locators are evaluated in order and the first
matched text whose once-stripped form is non-empty with length > 1 wins,
`Unknown Author` being stored when none qualifies; the strip removes one
leading case-insensitive `by`, `author:` or `author` occurrence together
with the following whitespace (so a stored author may still begin with
such a prefix when the original text repeated it). -/
theorem c8_amended_author :
    (∀ asel : List (Option String),
      authorChain asel
        = (((asel.filterMap id).map stripAuthorLead).find? qualAuthor).getD
            "Unknown Author")
    ∧ (∀ s : String, pyStartsWith (pyLower s) "by" = true →
        stripAuthorLead s = pyDropWS (pyDrop s 2))
    ∧ (∀ s : String, pyStartsWith (pyLower s) "by" = false →
        pyStartsWith (pyLower s) "author:" = true →
        stripAuthorLead s = pyDropWS (pyDrop s 7))
    ∧ (∀ s : String, pyStartsWith (pyLower s) "by" = false →
        pyStartsWith (pyLower s) "author:" = false →
        pyStartsWith (pyLower s) "author" = true →
        stripAuthorLead s = pyDropWS (pyDrop s 6)) := by
  refine ⟨authorChain_eq, ?_, ?_, ?_⟩
  · intro s h
    simp [stripAuthorLead, h]
  · intro s h1 h2
    simp [stripAuthorLead, h1, h2]
  · intro s h1 h2 h3
    simp [stripAuthorLead, h1, h2, h3]

/-- C8 amended witness: a non-qualifying first locator is passed over and
the second locator's text `by  W. B. Yeats` is stripped once and stored. -/
theorem c8_amended_author_w :
    authorChain [some "x", some "by  W. B. Yeats"] = "W. B. Yeats"
    ∧ stripAuthorLead "by  W. B. Yeats"
        = pyDropWS (pyDrop "by  W. B. Yeats" 2) :=
  ⟨(c8_amended_author.1 [some "x", some "by  W. B. Yeats"]).trans (by decide),
   c8_amended_author.2.1 "by  W. B. Yeats" (by decide)⟩

/-- C9: with the 1-indexed inclusive row range of author-range mode, rows
3–5 of any list whose rows 3, 4 and 5 hold author URLs yield exactly
those three URLs regardless of total length; an end row beyond the data
row count clamps to that count (1000 with 10 rows behaves as 10); and a
start row below 1 clamps to 1. -/
theorem c9_row_range :
    (∀ (rows : List (List String)) (u3 u4 u5 : String),
      (rows.get? 2).bind rowAuthorURL = some u3 →
      (rows.get? 3).bind rowAuthorURL = some u4 →
      (rows.get? 4).bind rowAuthorURL = some u5 →
      processedAuthors rows 3 (some 5) = [u3, u4, u5])
    ∧ (∀ rows : List (List String), rows.length = 10 →
        processedAuthors rows 3 (some 1000) = processedAuthors rows 3 (some 10))
    ∧ (∀ (rows : List (List String)) (s : Int) (e : Option Int), s < 1 →
        processedAuthors rows s e = processedAuthors rows 1 e) := by
  refine ⟨?_, ?_, ?_⟩
  · intro rows u3 u4 u5 h3 h4 h5
    have hlen : 4 < rows.length := by
      rcases hg : rows.get? 4 with _ | r
      · rw [hg] at h5
        exact absurd h5 (by simp)
      · exact (List.get?_eq_some.mp hg).1
    have hcast : ¬((5 : Int) > (rows.length : Int)) := by
      have : (5 : Int) ≤ (rows.length : Int) := by exact_mod_cast hlen
      omega
    rw [processedAuthors]
    simp only [if_neg (by omega : ¬((3 : Int) < 1)), if_neg hcast]
    have hrange : List.range' ((3 : Int) - 1).toNat
        (((5 : Int)).toNat - ((3 : Int) - 1).toNat) = [2, 3, 4] := by decide
    rw [hrange]
    simp only [List.get?_eq_getElem?] at h3 h4 h5
    simp [List.filterMap_cons, h3, h4, h5]
  · intro rows hlen
    simp only [processedAuthors, hlen]
    norm_num
  · intro rows s e hs
    simp only [processedAuthors]
    rw [if_pos hs, if_neg (by omega : ¬((1 : Int) < 1))]

/-- C9 witness: rows 3–5 of a six-row list yield exactly the third,
fourth and fifth URLs. -/
theorem c9_row_range_w :
    processedAuthors rowsW 3 (some 5) = ["http://c", "http://d", "http://e"] :=
  c9_row_range.1 rowsW "http://c" "http://d" "http://e"
    (by decide) (by decide) (by decide)

/-- C10: the author-prefix removal requires no whitespace after the
prefix: whenever the lowercased text begins with `by` — even as part of a
longer word — the two leading characters and any following whitespace are
removed before the length check; in particular `Byron` is stripped to
`ron`, which qualifies and is stored as the author. -/
theorem c10_by_no_space :
    (∀ s : String, pyStartsWith (pyLower s) "by" = true →
      stripAuthorLead s = pyDropWS (pyDrop s 2))
    ∧ authorChain [some "Byron"] = "ron" := by
  constructor
  · intro s h
    simp [stripAuthorLead, h]
  · decide

/-- C10 witness at the text `Byron`. -/
theorem c10_by_no_space_w :
    stripAuthorLead "Byron" = pyDropWS (pyDrop "Byron" 2) :=
  c10_by_no_space.1 "Byron" (by decide)

end Poems
